import Mathlib

/-!
Verification of the exonum-java-binding map-index JNI bridge.

The repository code under study is the JNI boundary layer
(`map_index.rs`, `memorydb.rs`): each exported function resolves a handle
to a tagged index (`SnapshotIndex` / `ForkIndex`), dispatches on the tag,
decodes its byte-array arguments, forwards to the underlying ordered
key-value engine, and translates failures (deliberate panics and decode
errors) into a host-visible error channel plus a type-appropriate default
return value.

The underlying engine (`exonum::storage::MapIndex`) is an external
dependency; its contract (an ordered map from byte keys to byte values,
iterated in byte-lexicographic key order) is modelled here from the spec
as a strictly-sorted association list.  The boundary functions themselves
are embedded directly from the Rust source, preserving the order of the
tag check, the argument decoding and the engine call.
-/

/-- Raw byte sequences as they cross the JNI boundary.  Only the ordering
of bytes matters for the properties below, so bytes are modelled as
naturals. -/
abbrev Bytes := List Nat

/-- Byte-lexicographic strict order on byte sequences: a proper prefix is
smaller, otherwise the first differing byte decides. -/
def lexLt : Bytes → Bytes → Bool
  | [], [] => false
  | [], _ :: _ => true
  | _ :: _, [] => false
  | a :: as, b :: bs => if a < b then true else if b < a then false else lexLt as bs

theorem lexLt_irrefl (a : Bytes) : lexLt a a = false := by
  induction a with
  | nil => rfl
  | cons x xs ih => simp [lexLt, Nat.lt_irrefl, ih]

theorem lexLt_connex (a b : Bytes) : a = b ∨ lexLt a b = true ∨ lexLt b a = true := by
  induction a generalizing b with
  | nil =>
    cases b with
    | nil => exact Or.inl rfl
    | cons y ys => exact Or.inr (Or.inl rfl)
  | cons x xs ih =>
    cases b with
    | nil => exact Or.inr (Or.inr rfl)
    | cons y ys =>
      rcases Nat.lt_trichotomy x y with h | h | h
      · exact Or.inr (Or.inl (by simp [lexLt, h]))
      · subst h
        rcases ih ys with h2 | h2 | h2
        · exact Or.inl (by rw [h2])
        · exact Or.inr (Or.inl (by simp [lexLt, Nat.lt_irrefl, h2]))
        · exact Or.inr (Or.inr (by simp [lexLt, Nat.lt_irrefl, h2]))
      · exact Or.inr (Or.inr (by simp [lexLt, h]))

theorem lexLt_trans {a : Bytes} :
    ∀ {b c : Bytes}, lexLt a b = true → lexLt b c = true → lexLt a c = true := by
  induction a with
  | nil =>
    intro b c h1 h2
    cases c with
    | nil => cases b with
      | nil => exact h1
      | cons y ys => simp [lexLt] at h2
    | cons z zs => rfl
  | cons x xs ih =>
    intro b c h1 h2
    cases b with
    | nil => simp [lexLt] at h1
    | cons y ys =>
      cases c with
      | nil => simp [lexLt] at h2
      | cons z zs =>
        rcases Nat.lt_trichotomy x y with hxy | hxy | hxy
        · rcases Nat.lt_trichotomy y z with hyz | hyz | hyz
          · simp [lexLt, Nat.lt_trans hxy hyz]
          · subst hyz; simp [lexLt, hxy]
          · simp [lexLt, hyz, Nat.lt_asymm hyz] at h2
        · subst hxy
          simp only [lexLt, Nat.lt_irrefl, if_false] at h1 h2 ⊢
          rcases Nat.lt_trichotomy x z with h | h | h
          · simp [h]
          · subst h
            simp only [Nat.lt_irrefl, if_false] at h2 ⊢
            exact ih h1 h2
          · simp [h, Nat.lt_asymm h] at h2
        · simp [lexLt, hxy, Nat.lt_asymm hxy] at h1

theorem lexLt_of_not_lt_of_ne {a b : Bytes} (h1 : lexLt a b = false) (h2 : a ≠ b) :
    lexLt b a = true := by
  rcases lexLt_connex a b with h | h | h
  · exact absurd h h2
  · rw [h1] at h; exact absurd h (by simp)
  · exact h

/-- Modelled from the spec: the engine's per-index contents, an ordered
mapping from byte keys to byte values (`MapIndex` of the external storage
engine, not part of this repository).  Represented as an association list
kept strictly sorted by `lexLt` on keys. -/
abbrev MapState := List (Bytes × Bytes)

/-- Modelled from the spec: `get(key)` returns the stored value or absent;
absent is a legitimate outcome, not an error. -/
def mapGet (m : MapState) (k : Bytes) : Option Bytes :=
  match m with
  | [] => none
  | (k2, v) :: rest => if k = k2 then some v else mapGet rest k

/-- Modelled from the spec: `contains(key)` tests key membership. -/
def mapContains (m : MapState) (k : Bytes) : Bool :=
  match m with
  | [] => false
  | (k2, _) :: rest => if k = k2 then true else mapContains rest k

/-- Modelled from the spec: `put(key, value)` inserts or overwrites,
keeping the contents sorted by key. -/
def mapPut (m : MapState) (k v : Bytes) : MapState :=
  match m with
  | [] => [(k, v)]
  | (k2, v2) :: rest =>
    if lexLt k k2 then (k, v) :: (k2, v2) :: rest
    else if k = k2 then (k, v) :: rest
    else (k2, v2) :: mapPut rest k v

/-- Modelled from the spec: `remove(key)` deletes the key if present;
removing an absent key is a no-op. -/
def mapRemove (m : MapState) (k : Bytes) : MapState :=
  match m with
  | [] => []
  | (k2, v2) :: rest => if k = k2 then rest else (k2, v2) :: mapRemove rest k

/-- Modelled from the spec: `clear()` removes all entries of the index's
namespace. -/
def mapClear (_ : MapState) : MapState := []

/-- Modelled from the spec: `iter()` yields the (key, value) pairs in
byte-lexicographic key order — for a sorted association list, the list
itself. -/
def mapIter (m : MapState) : List (Bytes × Bytes) := m

/-- Modelled from the spec: `iter_from(key)` seeks to the first key ≥ the
given key (inclusive) and is otherwise identical to `iter()`. -/
def mapIterFrom (k : Bytes) (m : MapState) : List (Bytes × Bytes) :=
  m.dropWhile (fun p => lexLt p.1 k)

/-- Modelled from the spec: `keys()`, the iteration projected to keys. -/
def mapKeys (m : MapState) : List Bytes := m.map Prod.fst

/-- Modelled from the spec: `values()`, the iteration projected to
values. -/
def mapValues (m : MapState) : List Bytes := m.map Prod.snd

/-- Modelled from the spec: `keys_from(key)`, same seek contract as
`iter_from`, projected to keys. -/
def mapKeysFrom (k : Bytes) (m : MapState) : List Bytes :=
  (mapIterFrom k m).map Prod.fst

/-- Modelled from the spec: `values_from(key)`, same seek contract as
`iter_from`, projected to values. -/
def mapValuesFrom (k : Bytes) (m : MapState) : List Bytes :=
  (mapIterFrom k m).map Prod.snd

/-- The engine invariant: contents strictly sorted by key. -/
def Sorted (m : MapState) : Prop :=
  List.Pairwise (fun p q => lexLt p.1 q.1 = true) m

/-- Keys are pairwise distinct. -/
def NodupKeys (m : MapState) : Prop :=
  List.Pairwise (fun p q => p.1 ≠ q.1) m

instance (m : MapState) : Decidable (Sorted m) :=
  List.instDecidablePairwise m

instance (m : MapState) : Decidable (NodupKeys m) :=
  List.instDecidablePairwise m

/-- The contents reached by performing the given `put` operations, in
order, starting from an empty index. -/
def buildMap (ps : List (Bytes × Bytes)) : MapState :=
  ps.foldl (fun m p => mapPut m p.1 p.2) []

theorem mapPut_cons (a : Bytes × Bytes) (rest : MapState) (k v : Bytes) :
    mapPut (a :: rest) k v =
      if lexLt k a.1 then (k, v) :: a :: rest
      else if k = a.1 then (k, v) :: rest
      else a :: mapPut rest k v := by
  cases a; rfl

theorem mem_mapPut {m : MapState} {k v : Bytes} {p : Bytes × Bytes}
    (h : p ∈ mapPut m k v) : p = (k, v) ∨ p ∈ m := by
  induction m with
  | nil => simpa [mapPut] using h
  | cons a rest ih =>
    rw [mapPut_cons] at h
    by_cases h1 : lexLt k a.1
    · rw [if_pos h1] at h
      rcases List.mem_cons.mp h with h | h
      · exact Or.inl h
      · exact Or.inr h
    · rw [if_neg h1] at h
      by_cases h2 : k = a.1
      · rw [if_pos h2] at h
        rcases List.mem_cons.mp h with h | h
        · exact Or.inl h
        · exact Or.inr (List.mem_cons_of_mem _ h)
      · rw [if_neg h2] at h
        rcases List.mem_cons.mp h with h | h
        · exact Or.inr (h ▸ List.mem_cons_self a rest)
        · rcases ih h with h3 | h3
          · exact Or.inl h3
          · exact Or.inr (List.mem_cons_of_mem _ h3)

theorem sorted_mapPut {m : MapState} (k v : Bytes) (hs : Sorted m) :
    Sorted (mapPut m k v) := by
  induction m with
  | nil => simp [mapPut, Sorted]
  | cons a rest ih =>
    rw [Sorted, List.pairwise_cons] at hs
    obtain ⟨ha, hrest⟩ := hs
    rw [mapPut_cons]
    by_cases h1 : lexLt k a.1
    · rw [if_pos h1]
      rw [Sorted, List.pairwise_cons]
      refine ⟨?_, List.Pairwise.cons ha hrest⟩
      intro q hq
      rcases List.mem_cons.mp hq with hq | hq
      · simpa [hq] using h1
      · exact lexLt_trans h1 (ha q hq)
    · rw [if_neg h1]
      by_cases h2 : k = a.1
      · rw [if_pos h2]
        rw [Sorted, List.pairwise_cons]
        exact ⟨fun q hq => by simpa [h2] using ha q hq, hrest⟩
      · rw [if_neg h2]
        rw [Sorted, List.pairwise_cons]
        refine ⟨?_, ih hrest⟩
        intro q hq
        rcases mem_mapPut hq with h3 | h3
        · have := lexLt_of_not_lt_of_ne (by simpa using h1) h2
          simpa [h3] using this
        · exact ha q h3

theorem sorted_foldl_put (ps : List (Bytes × Bytes)) :
    ∀ m : MapState, Sorted m → Sorted (ps.foldl (fun m p => mapPut m p.1 p.2) m) := by
  induction ps with
  | nil => intro m hm; simpa using hm
  | cons p rest ih =>
    intro m hm
    simpa using ih (mapPut m p.1 p.2) (sorted_mapPut p.1 p.2 hm)

theorem sorted_buildMap (ps : List (Bytes × Bytes)) : Sorted (buildMap ps) :=
  sorted_foldl_put ps [] (by simp [Sorted])

theorem mapGet_cons (a : Bytes × Bytes) (rest : MapState) (k : Bytes) :
    mapGet (a :: rest) k = if k = a.1 then some a.2 else mapGet rest k := by
  cases a; rfl

theorem mapContains_cons (a : Bytes × Bytes) (rest : MapState) (k : Bytes) :
    mapContains (a :: rest) k = if k = a.1 then true else mapContains rest k := by
  cases a; rfl

theorem mapRemove_cons (a : Bytes × Bytes) (rest : MapState) (k : Bytes) :
    mapRemove (a :: rest) k = if k = a.1 then rest else a :: mapRemove rest k := by
  cases a; rfl

theorem mapGet_put_same (m : MapState) (k v : Bytes) :
    mapGet (mapPut m k v) k = some v := by
  induction m with
  | nil => simp [mapPut, mapGet]
  | cons a rest ih =>
    rw [mapPut_cons]
    by_cases h1 : lexLt k a.1
    · rw [if_pos h1, mapGet_cons]; simp
    · rw [if_neg h1]
      by_cases h2 : k = a.1
      · rw [if_pos h2, mapGet_cons]; simp
      · rw [if_neg h2, mapGet_cons, if_neg h2]; exact ih

theorem mapGet_put_other {k k2 : Bytes} (m : MapState) (v2 : Bytes) (h : k ≠ k2) :
    mapGet (mapPut m k2 v2) k = mapGet m k := by
  induction m with
  | nil => simp [mapPut, mapGet, h]
  | cons a rest ih =>
    rw [mapPut_cons]
    by_cases h1 : lexLt k2 a.1
    · rw [if_pos h1, mapGet_cons]; simp [h, mapGet_cons]
    · rw [if_neg h1]
      by_cases h2 : k2 = a.1
      · rw [if_pos h2, mapGet_cons, mapGet_cons]
        simp only [h2] at h ⊢
        rw [if_neg h, if_neg h]
      · rw [if_neg h2, mapGet_cons, mapGet_cons, ih]

theorem mapContains_eq_isSome (m : MapState) (k : Bytes) :
    mapContains m k = (mapGet m k).isSome := by
  induction m with
  | nil => rfl
  | cons a rest ih =>
    rw [mapContains_cons, mapGet_cons]
    by_cases h : k = a.1
    · simp [h]
    · simp [h, ih]

theorem mapGet_eq_none_of_forall {m : MapState} {k : Bytes}
    (h : ∀ p ∈ m, p.1 ≠ k) : mapGet m k = none := by
  induction m with
  | nil => rfl
  | cons a rest ih =>
    rw [mapGet_cons, if_neg ?_]
    · exact ih fun p hp => h p (List.mem_cons_of_mem _ hp)
    · intro hk
      exact h a (List.mem_cons_self a rest) hk.symm

theorem mapGet_remove_same {m : MapState} (k : Bytes) (hnd : NodupKeys m) :
    mapGet (mapRemove m k) k = none := by
  induction m with
  | nil => rfl
  | cons a rest ih =>
    rw [NodupKeys, List.pairwise_cons] at hnd
    obtain ⟨ha, hrest⟩ := hnd
    rw [mapRemove_cons]
    by_cases h : k = a.1
    · rw [if_pos h]
      exact mapGet_eq_none_of_forall fun p hp => by
        intro hk
        exact ha p hp (by rw [← h, hk])
    · rw [if_neg h, mapGet_cons, if_neg h]
      exact ih hrest

theorem mapGet_remove_other {k k2 : Bytes} (m : MapState) (h : k ≠ k2) :
    mapGet (mapRemove m k2) k = mapGet m k := by
  induction m with
  | nil => rfl
  | cons a rest ih =>
    rw [mapRemove_cons]
    by_cases h2 : k2 = a.1
    · rw [if_pos h2, mapGet_cons]
      rw [← h2, if_neg h]
    · rw [if_neg h2, mapGet_cons, mapGet_cons, ih]

theorem mapRemove_absent {m : MapState} {k : Bytes}
    (h : mapContains m k = false) : mapRemove m k = m := by
  induction m with
  | nil => rfl
  | cons a rest ih =>
    rw [mapContains_cons] at h
    by_cases h2 : k = a.1
    · rw [if_pos h2] at h; exact absurd h (by simp)
    · rw [if_neg h2] at h
      rw [mapRemove_cons, if_neg h2, ih h]

theorem mem_foldl_put (ps : List (Bytes × Bytes)) :
    ∀ (m : MapState) (p : Bytes × Bytes),
      p ∈ ps.foldl (fun m q => mapPut m q.1 q.2) m → p ∈ m ∨ p.1 ∈ ps.map Prod.fst := by
  induction ps with
  | nil => intro m p hp; exact Or.inl (by simpa using hp)
  | cons q rest ih =>
    intro m p hp
    simp only [List.foldl_cons] at hp
    rcases ih (mapPut m q.1 q.2) p hp with h | h
    · rcases mem_mapPut h with h2 | h2
      · exact Or.inr (by simp [h2])
      · exact Or.inl h2
    · exact Or.inr (by simp [h])

theorem mapGet_buildMap_fresh {ps : List (Bytes × Bytes)} {k : Bytes}
    (h : k ∉ ps.map Prod.fst) : mapGet (buildMap ps) k = none := by
  refine mapGet_eq_none_of_forall fun p hp => ?_
  intro hk
  rcases mem_foldl_put ps [] p hp with h2 | h2
  · simp at h2
  · exact h (hk ▸ h2)

theorem sorted_iterFrom_all_ge {m : MapState} (k : Bytes) (hs : Sorted m) :
    ∀ p ∈ mapIterFrom k m, lexLt p.1 k = false := by
  induction m with
  | nil => intro p hp; simp [mapIterFrom] at hp
  | cons a rest ih =>
    rw [Sorted, List.pairwise_cons] at hs
    obtain ⟨ha, hrest⟩ := hs
    intro p hp
    rw [mapIterFrom, List.dropWhile_cons] at hp
    by_cases hak : lexLt a.1 k
    · rw [if_pos (by simpa using hak)] at hp
      exact ih hrest p hp
    · rw [if_neg (by simpa using hak)] at hp
      rcases List.mem_cons.mp hp with h | h
      · simpa [h] using hak
      · by_contra hc
        rw [Bool.not_eq_false] at hc
        exact hak (lexLt_trans (ha p h) hc)

/-- Host-visible error conditions raised at the JNI boundary.
`illegalMutation` models the deliberate `panic!("Unable to modify
snapshot.")` caught by `panic::catch_unwind`; `invalidArgument` models a
failed `env.convert_byte_array` / `utils::convert_to_string` argument
decoding propagated with `?`. -/
inductive JniError
  | illegalMutation
  | invalidArgument
deriving DecidableEq

/-- The tagged index stored behind a map handle, from `enum IndexType` in
`map_index.rs`: `SnapshotIndex` wraps a read-only view, `ForkIndex` a
mutable one.  Both carry the same kind of logical contents. -/
inductive IndexType
  | snapshotIndex (map : MapState)
  | forkIndex (map : MapState)
deriving DecidableEq

/-- Opaque JNI handles are integer-sized values; `0` is the null
sentinel. -/
abbrev Handle := Nat

/-- The sentinel null handle returned on failure. -/
def nullHandle : Handle := 0

/-- Argument decoding of a `jbyteArray`, from `env.convert_byte_array`:
`none` models an undecodable byte-array argument, whose conversion fails
and is propagated with `?`. -/
def convert_byte_array : Option Bytes → Except JniError Bytes
  | some b => Except.ok b
  | none => Except.error JniError.invalidArgument

/-- Argument decoding of a `JString`, from `utils::convert_to_string`. -/
def convert_to_string : Option String → Except JniError String
  | some s => Except.ok s
  | none => Except.error JniError.invalidArgument

/-- From `utils::unwrap_exc_or`: delivers the caught error (panic or
decode failure) to the host's error channel and returns the supplied
default value in its place; a normal result passes through with an empty
error channel. -/
def unwrap_exc_or {α : Type} (res : Except JniError α) (d : α) : α × Option JniError :=
  match res with
  | Except.ok v => (v, none)
  | Except.error e => (d, some e)

/-- From `utils::unwrap_exc_or_default`: `unwrap_exc_or` with the
type-appropriate default value (`0` for handles, `false` for booleans,
null for pointers). -/
def unwrap_exc_or_default {α : Type} [Inhabited α] (res : Except JniError α) :
    α × Option JniError :=
  unwrap_exc_or res default

/-- From `utils::unwrap_or_exception` in the `memorydb.rs` bridge: same
error-translation contract as `unwrap_exc_or_default`. -/
def unwrap_or_exception {α : Type} [Inhabited α] (res : Except JniError α) :
    α × Option JniError :=
  unwrap_exc_or res default

/-- Threads the post-state of a mutating boundary call: on success the
index behind the handle has the new contents, on failure (panic caught
before or during the call, or decode failure raised before the engine
call) the index is left as it was. -/
def mutationResult (idx : IndexType) (res : Except JniError IndexType) :
    IndexType × Option JniError :=
  match res with
  | Except.ok idx2 => (idx2, none)
  | Except.error e => (idx, some e)

/-- Embedded from `nativeGet` in `map_index.rs`: decode the key, dispatch
on the tag, look the key up in the backing view; null (`none`) is
returned when the value is not found, and also, with the error delivered,
on failure. -/
def Java_com_exonum_binding_storage_indices_MapIndexProxy_nativeGet
    (idx : IndexType) (key : Option Bytes) : Option Bytes × Option JniError :=
  unwrap_exc_or
    (do
      let k ← convert_byte_array key
      match idx with
      | IndexType.snapshotIndex m => pure (mapGet m k)
      | IndexType.forkIndex m => pure (mapGet m k))
    none

/-- Embedded from `nativeContainsKey` in `map_index.rs`: decode the key,
dispatch on the tag, test membership; the `jboolean` default `false` is
returned on failure. -/
def Java_com_exonum_binding_storage_indices_MapIndexProxy_nativeContainsKey
    (idx : IndexType) (key : Option Bytes) : Bool × Option JniError :=
  unwrap_exc_or_default
    (do
      let k ← convert_byte_array key
      match idx with
      | IndexType.snapshotIndex m => pure (mapContains m k)
      | IndexType.forkIndex m => pure (mapContains m k))

/-- Embedded from `nativeCreateEntriesIter` in `map_index.rs`: dispatch on
the tag and create the ordered entries cursor; the handle is null
(`none`) on failure. -/
def Java_com_exonum_binding_storage_indices_MapIndexProxy_nativeCreateEntriesIter
    (idx : IndexType) : Option (List (Bytes × Bytes)) × Option JniError :=
  unwrap_exc_or_default
    (match idx with
     | IndexType.snapshotIndex m => pure (some (mapIter m))
     | IndexType.forkIndex m => pure (some (mapIter m)))

/-- Embedded from `nativeCreateKeysIter` in `map_index.rs`. -/
def Java_com_exonum_binding_storage_indices_MapIndexProxy_nativeCreateKeysIter
    (idx : IndexType) : Option (List Bytes) × Option JniError :=
  unwrap_exc_or_default
    (match idx with
     | IndexType.snapshotIndex m => pure (some (mapKeys m))
     | IndexType.forkIndex m => pure (some (mapKeys m)))

/-- Embedded from `nativeCreateValuesIter` in `map_index.rs`. -/
def Java_com_exonum_binding_storage_indices_MapIndexProxy_nativeCreateValuesIter
    (idx : IndexType) : Option (List Bytes) × Option JniError :=
  unwrap_exc_or_default
    (match idx with
     | IndexType.snapshotIndex m => pure (some (mapValues m))
     | IndexType.forkIndex m => pure (some (mapValues m)))

/-- Embedded from `nativeCreateIterFrom` in `map_index.rs`: decode the
starting key, dispatch on the tag, seek the entries cursor to the first
key ≥ the given key. -/
def Java_com_exonum_binding_storage_indices_MapIndexProxy_nativeCreateIterFrom
    (idx : IndexType) (key : Option Bytes) :
    Option (List (Bytes × Bytes)) × Option JniError :=
  unwrap_exc_or_default
    (do
      let k ← convert_byte_array key
      match idx with
      | IndexType.snapshotIndex m => pure (some (mapIterFrom k m))
      | IndexType.forkIndex m => pure (some (mapIterFrom k m)))

/-- Embedded from `nativeKeysFrom` in `map_index.rs`. -/
def Java_com_exonum_binding_storage_indices_MapIndexProxy_nativeKeysFrom
    (idx : IndexType) (key : Option Bytes) : Option (List Bytes) × Option JniError :=
  unwrap_exc_or_default
    (do
      let k ← convert_byte_array key
      match idx with
      | IndexType.snapshotIndex m => pure (some (mapKeysFrom k m))
      | IndexType.forkIndex m => pure (some (mapKeysFrom k m)))

/-- Embedded from `nativeValuesFrom` in `map_index.rs`. -/
def Java_com_exonum_binding_storage_indices_MapIndexProxy_nativeValuesFrom
    (idx : IndexType) (key : Option Bytes) : Option (List Bytes) × Option JniError :=
  unwrap_exc_or_default
    (do
      let k ← convert_byte_array key
      match idx with
      | IndexType.snapshotIndex m => pure (some (mapValuesFrom k m))
      | IndexType.forkIndex m => pure (some (mapValuesFrom k m)))

/-- Embedded from `nativePut` in `map_index.rs`: the tag is matched first;
a Snapshot fails immediately (panic, caught at the boundary) before any
argument is decoded; on a Fork the key and then the value are decoded
(each failure propagated with `?` before the engine call) and the pair is
stored. -/
def Java_com_exonum_binding_storage_indices_MapIndexProxy_nativePut
    (idx : IndexType) (key value : Option Bytes) : IndexType × Option JniError :=
  mutationResult idx
    (match idx with
     | IndexType.snapshotIndex _ => Except.error JniError.illegalMutation
     | IndexType.forkIndex m => do
         let k ← convert_byte_array key
         let v ← convert_byte_array value
         pure (IndexType.forkIndex (mapPut m k v)))

/-- Embedded from `nativeRemove` in `map_index.rs`: tag matched first;
Snapshot fails immediately; on a Fork the key is decoded and removed. -/
def Java_com_exonum_binding_storage_indices_MapIndexProxy_nativeRemove
    (idx : IndexType) (key : Option Bytes) : IndexType × Option JniError :=
  mutationResult idx
    (match idx with
     | IndexType.snapshotIndex _ => Except.error JniError.illegalMutation
     | IndexType.forkIndex m => do
         let k ← convert_byte_array key
         pure (IndexType.forkIndex (mapRemove m k)))

/-- Embedded from `nativeClear` in `map_index.rs`: tag matched first;
Snapshot fails immediately; a Fork is emptied. -/
def Java_com_exonum_binding_storage_indices_MapIndexProxy_nativeClear
    (idx : IndexType) : IndexType × Option JniError :=
  mutationResult idx
    (match idx with
     | IndexType.snapshotIndex _ => Except.error JniError.illegalMutation
     | IndexType.forkIndex m => pure (IndexType.forkIndex (mapClear m)))

/-- Modelled from the spec: a physical namespace of the shared store — a
directly-named index, or a family member addressed by group name plus
per-instance identifier (`group_name || separator || instance_id`);
family instances with the same group but different identifiers have
disjoint key spaces. -/
inductive Ns
  | simple (name : String)
  | family (group : String) (id : Bytes)
deriving DecidableEq

/-- Modelled from the spec: the engine's whole key-value space, one
logical map per namespace, owned transitively by the Database Root. -/
abbrev GlobalStore := Ns → MapState

/-- The tag of the `View` behind a view handle (`ViewRef::Snapshot` or
`ViewRef::Fork` in `storage::db`). -/
inductive ViewTag
  | snapshot
  | fork
deriving DecidableEq

/-- Wraps contents in the index variant matching the view tag, as the
`match *view_ref` arms of `nativeCreate` / `nativeCreateInGroup` do. -/
def mkIndex (tag : ViewTag) (m : MapState) : IndexType :=
  match tag with
  | ViewTag.snapshot => IndexType.snapshotIndex m
  | ViewTag.fork => IndexType.forkIndex m

/-- Embedded from `nativeCreate` in `map_index.rs`: decode the name,
dispatch on the view tag and wrap the namespace's contents in the
matching index variant; the handle is null on failure. -/
def Java_com_exonum_binding_storage_indices_MapIndexProxy_nativeCreate
    (store : GlobalStore) (tag : ViewTag) (name : Option String) :
    Option IndexType × Option JniError :=
  unwrap_exc_or_default
    (do
      let n ← convert_to_string name
      pure (some (mkIndex tag (store (Ns.simple n)))))

/-- Embedded from `nativeCreateInGroup` in `map_index.rs`: decode the
group name and then the instance identifier, dispatch on the view tag and
wrap the family namespace's contents. -/
def Java_com_exonum_binding_storage_indices_MapIndexProxy_nativeCreateInGroup
    (store : GlobalStore) (tag : ViewTag) (group_name : Option String)
    (map_id : Option Bytes) : Option IndexType × Option JniError :=
  unwrap_exc_or_default
    (do
      let g ← convert_to_string group_name
      let id ← convert_byte_array map_id
      pure (some (mkIndex tag (store (Ns.family g id)))))

/-- Modelled from the spec: the effect of `clear()` on the whole store —
the cleared index's namespace is emptied, every other namespace is left
untouched. -/
def storeClear (s : GlobalStore) (n : Ns) : GlobalStore :=
  fun n2 => if n2 = n then mapClear (s n) else s n2

/-- One `next()` step of the iterator bridge: the cursor state is the
remaining sequence; an exhausted cursor yields `none` and stays
exhausted. -/
def iterNext {α : Type} (it : List α) : Option α × List α :=
  match it with
  | [] => (none, [])
  | x :: xs => (some x, xs)

/-- The result and cursor state after performing `n + 1` successive
`next()` calls on an iterator handle. -/
def iterNextN {α : Type} (it : List α) : Nat → Option α × List α
  | 0 => iterNext it
  | n + 1 => iterNext (iterNextN it n).2

/-- Embedded from `nativeEntriesIterNext` in `map_index.rs`: advance the
entries cursor behind the handle; a pair is materialized at call time,
null is returned when the iteration is finished. -/
def Java_com_exonum_binding_storage_indices_MapIndexProxy_nativeEntriesIterNext
    (it : List (Bytes × Bytes)) : Option (Bytes × Bytes) × List (Bytes × Bytes) :=
  iterNext it

/-- Embedded from `nativeKeysIterNext` in `map_index.rs`. -/
def Java_com_exonum_binding_storage_indices_MapIndexProxy_nativeKeysIterNext
    (it : List Bytes) : Option Bytes × List Bytes :=
  iterNext it

/-- Embedded from `nativeValuesIterNext` in `map_index.rs`. -/
def Java_com_exonum_binding_storage_indices_MapIndexProxy_nativeValuesIterNext
    (it : List Bytes) : Option Bytes × List Bytes :=
  iterNext it

/-- Embedded from `nativeCreateMemoryDB` in `memorydb.rs`: the boxing of
the fresh database runs inside `panic::catch_unwind`; its outcome is the
argument, and `unwrap_or_exception` turns a failure into the null handle
with the error delivered. -/
def Java_com_exonum_storage_DB_MemoryDB_nativeCreateMemoryDB
    (res : Except JniError Handle) : Handle × Option JniError :=
  unwrap_or_exception res

theorem iterNext_eq_none {α : Type} {it : List α} (h : (iterNext it).1 = none) :
    iterNext it = (none, []) := by
  cases it with
  | nil => rfl
  | cons x xs => simp [iterNext] at h

theorem iterNextN_none_state {α : Type} {it : List α} {n : Nat}
    (h : (iterNextN it n).1 = none) : (iterNextN it n).2 = [] := by
  cases n with
  | zero =>
    have h0 : (iterNext it).1 = none := h
    show (iterNext it).2 = []
    rw [iterNext_eq_none h0]
  | succ n =>
    have h0 : (iterNext (iterNextN it n).2).1 = none := h
    show (iterNext (iterNextN it n).2).2 = []
    rw [iterNext_eq_none h0]

theorem iterNextN_terminal {α : Type} {it : List α} {n : Nat}
    (h : (iterNextN it n).1 = none) :
    ∀ {m : Nat}, n ≤ m → (iterNextN it m).1 = none := by
  intro m hm
  induction hm with
  | refl => exact h
  | @step m2 _ ih =>
    show (iterNext (iterNextN it m2).2).1 = none
    rw [iterNextN_none_state ih]
    rfl

/-- C1: every mutation operation (`nativePut`, `nativeRemove`,
`nativeClear`) on a Snapshot-backed map index fails with the
`IllegalMutation` condition before any work is performed — for every
argument, including undecodable ones — and leaves the index's contents
unchanged. -/
theorem c1_snapshot_mutation_rejected (m : MapState) (key value : Option Bytes) :
    Java_com_exonum_binding_storage_indices_MapIndexProxy_nativePut
        (IndexType.snapshotIndex m) key value =
      (IndexType.snapshotIndex m, some JniError.illegalMutation) ∧
    Java_com_exonum_binding_storage_indices_MapIndexProxy_nativeRemove
        (IndexType.snapshotIndex m) key =
      (IndexType.snapshotIndex m, some JniError.illegalMutation) ∧
    Java_com_exonum_binding_storage_indices_MapIndexProxy_nativeClear
        (IndexType.snapshotIndex m) =
      (IndexType.snapshotIndex m, some JniError.illegalMutation) :=
  ⟨rfl, rfl, rfl⟩

/-- C2: whatever the insertion order, the entries iterator yields the
pairs of the resulting contents in strictly increasing byte-lexicographic
key order, and `iter_from(kj)` (via `nativeCreateIterFrom`) yields
exactly the suffix of that sequence starting at the first key ≥ kj: the
full sequence splits as the keys < kj followed by `iter_from(kj)`. -/
theorem c2_iteration_order_and_seek (ps : List (Bytes × Bytes)) (kj : Bytes) :
    List.Pairwise (fun p q => lexLt p.1 q.1 = true) (mapIter (buildMap ps)) ∧
    Java_com_exonum_binding_storage_indices_MapIndexProxy_nativeCreateIterFrom
        (IndexType.forkIndex (buildMap ps)) (some kj) =
      (some (mapIterFrom kj (buildMap ps)), none) ∧
    mapIter (buildMap ps) =
      (mapIter (buildMap ps)).takeWhile (fun p => lexLt p.1 kj) ++
        mapIterFrom kj (buildMap ps) ∧
    ((mapIter (buildMap ps)).takeWhile (fun p => lexLt p.1 kj)).all
        (fun p => lexLt p.1 kj) = true ∧
    (mapIterFrom kj (buildMap ps)).all (fun p => !lexLt p.1 kj) = true := by
  refine ⟨sorted_buildMap ps, rfl, ?_, ?_, ?_⟩
  · exact (List.takeWhile_append_dropWhile (fun p => lexLt p.1 kj) (buildMap ps)).symm
  · apply List.all_eq_true.mpr
    intro p hp
    have h2 := List.mem_takeWhile_imp hp
    exact h2
  · exact List.all_eq_true.mpr fun p hp => by
      simp [sorted_iterFrom_all_ge kj (sorted_buildMap ps) p hp]

/-- C3: after `nativePut` of (k, v) on a Fork-backed index, `get(k)`
returns v and `contains(k)` is true, and both survive any put or remove
of a different key; only `remove(k)`, `clear()` or an overwriting
`put(k, v2)` can change them. -/
theorem c3_put_then_get (m : MapState) (k v k2 v2 : Bytes) (hne : k2 ≠ k) :
    Java_com_exonum_binding_storage_indices_MapIndexProxy_nativePut
        (IndexType.forkIndex m) (some k) (some v) =
      (IndexType.forkIndex (mapPut m k v), none) ∧
    mapGet (mapPut m k v) k = some v ∧
    mapContains (mapPut m k v) k = true ∧
    mapGet (mapPut (mapPut m k v) k2 v2) k = some v ∧
    mapGet (mapRemove (mapPut m k v) k2) k = some v := by
  refine ⟨rfl, mapGet_put_same m k v, ?_, ?_, ?_⟩
  · rw [mapContains_eq_isSome, mapGet_put_same]; rfl
  · rw [mapGet_put_other _ v2 hne.symm, mapGet_put_same]
  · rw [mapGet_remove_other _ hne.symm, mapGet_put_same]

/-- C3 witness: the roundtrip at a concrete index, key and value. -/
theorem c3_put_then_get_witness :
    Java_com_exonum_binding_storage_indices_MapIndexProxy_nativePut
        (IndexType.forkIndex []) (some [1]) (some [10]) =
      (IndexType.forkIndex (mapPut [] [1] [10]), none) ∧
    mapGet (mapPut [] [1] [10]) [1] = some [10] ∧
    mapContains (mapPut [] [1] [10]) [1] = true ∧
    mapGet (mapPut (mapPut [] [1] [10]) [2] [20]) [1] = some [10] ∧
    mapGet (mapRemove (mapPut [] [1] [10]) [2]) [1] = some [10] :=
  c3_put_then_get [] [1] [10] [2] [20] (by decide)

/-- C4: `contains` agrees with `get` on the same contents — it is true
exactly when `get` returns a present value — both boundary reads report
the underlying lookups, and a key never inserted is absent under both. -/
theorem c4_contains_get_consistent (m : MapState) (k kf : Bytes)
    (ps : List (Bytes × Bytes)) (hfresh : kf ∉ ps.map Prod.fst) :
    mapContains m k = (mapGet m k).isSome ∧
    Java_com_exonum_binding_storage_indices_MapIndexProxy_nativeContainsKey
        (IndexType.forkIndex m) (some k) = (mapContains m k, none) ∧
    Java_com_exonum_binding_storage_indices_MapIndexProxy_nativeGet
        (IndexType.snapshotIndex m) (some k) = (mapGet m k, none) ∧
    mapGet (buildMap ps) kf = none ∧
    mapContains (buildMap ps) kf = false := by
  refine ⟨mapContains_eq_isSome m k, rfl, rfl, mapGet_buildMap_fresh hfresh, ?_⟩
  rw [mapContains_eq_isSome, mapGet_buildMap_fresh hfresh]
  rfl

/-- C4 witness: consistency at a concrete state and a fresh key. -/
theorem c4_contains_get_consistent_witness :
    mapContains [([1], [2])] [1] = (mapGet [([1], [2])] [1]).isSome ∧
    Java_com_exonum_binding_storage_indices_MapIndexProxy_nativeContainsKey
        (IndexType.forkIndex [([1], [2])]) (some [1]) =
      (mapContains [([1], [2])] [1], none) ∧
    Java_com_exonum_binding_storage_indices_MapIndexProxy_nativeGet
        (IndexType.snapshotIndex [([1], [2])]) (some [1]) =
      (mapGet [([1], [2])] [1], none) ∧
    mapGet (buildMap [([1], [2])]) [3] = none ∧
    mapContains (buildMap [([1], [2])]) [3] = false :=
  c4_contains_get_consistent [([1], [2])] [1] [3] [([1], [2])] (by decide)

/-- C5: on a Fork-backed index, `nativeRemove` forwards to the engine's
remove and raises no error; `get(k)` after `remove(k)` is absent (for any
contents with distinct keys, the engine invariant); removing an absent
key leaves the contents untouched and raises no error. -/
theorem c5_remove_semantics (m m2 : MapState) (k k2 : Bytes)
    (hnd : NodupKeys m) (habs : mapContains m2 k2 = false) :
    Java_com_exonum_binding_storage_indices_MapIndexProxy_nativeRemove
        (IndexType.forkIndex m) (some k) =
      (IndexType.forkIndex (mapRemove m k), none) ∧
    mapGet (mapRemove m k) k = none ∧
    mapRemove m2 k2 = m2 ∧
    Java_com_exonum_binding_storage_indices_MapIndexProxy_nativeRemove
        (IndexType.forkIndex m2) (some k2) =
      (IndexType.forkIndex m2, none) := by
  refine ⟨rfl, mapGet_remove_same k hnd, mapRemove_absent habs, ?_⟩
  show (IndexType.forkIndex (mapRemove m2 k2), (none : Option JniError)) =
    (IndexType.forkIndex m2, none)
  rw [mapRemove_absent habs]

/-- C5 witness: removal at a concrete present key and a concrete absent
key. -/
theorem c5_remove_semantics_witness :
    Java_com_exonum_binding_storage_indices_MapIndexProxy_nativeRemove
        (IndexType.forkIndex [([1], [5]), ([2], [6])]) (some [1]) =
      (IndexType.forkIndex (mapRemove [([1], [5]), ([2], [6])] [1]), none) ∧
    mapGet (mapRemove [([1], [5]), ([2], [6])] [1]) [1] = none ∧
    mapRemove [([2], [6])] [1] = [([2], [6])] ∧
    Java_com_exonum_binding_storage_indices_MapIndexProxy_nativeRemove
        (IndexType.forkIndex [([2], [6])]) (some [1]) =
      (IndexType.forkIndex [([2], [6])], none) :=
  c5_remove_semantics [([1], [5]), ([2], [6])] [([2], [6])] [1] [1]
    (by decide) (by decide)

/-- C6: `nativeClear` on a Fork-backed index empties its own namespace —
afterwards `contains(k)` is false for every key — and the contents of
every other namespace, in particular a family sibling with the same group
name but a different instance identifier, are untouched. -/
theorem c6_clear_frame (s : GlobalStore) (n n2 : Ns) (k : Bytes)
    (g : String) (id id2 : Bytes) (hn : n2 ≠ n) (hid : id ≠ id2) :
    Java_com_exonum_binding_storage_indices_MapIndexProxy_nativeClear
        (IndexType.forkIndex (s n)) = (IndexType.forkIndex [], none) ∧
    mapContains (storeClear s n n) k = false ∧
    storeClear s n n2 = s n2 ∧
    storeClear s (Ns.family g id) (Ns.family g id2) = s (Ns.family g id2) := by
  refine ⟨rfl, ?_, ?_, ?_⟩
  · simp [storeClear, mapClear, mapContains]
  · simp [storeClear, hn]
  · have hne : Ns.family g id2 ≠ Ns.family g id := by
      intro h
      injection h with h1 h2
      exact hid h2.symm
    simp [storeClear, hne]

/-- C6 witness: clearing one namespace at a concrete store, with a
distinct plain namespace and a distinct family sibling. -/
theorem c6_clear_frame_witness :
    Java_com_exonum_binding_storage_indices_MapIndexProxy_nativeClear
        (IndexType.forkIndex ((fun _ => [([1], [9])]) (Ns.simple "a"))) =
      (IndexType.forkIndex [], none) ∧
    mapContains
      (storeClear (fun _ => [([1], [9])]) (Ns.simple "a") (Ns.simple "a")) [1] = false ∧
    storeClear (fun _ => [([1], [9])]) (Ns.simple "a") (Ns.simple "b") =
      (fun _ => [([1], [9])] : GlobalStore) (Ns.simple "b") ∧
    storeClear (fun _ => [([1], [9])]) (Ns.family "g" [0]) (Ns.family "g" [1]) =
      (fun _ => [([1], [9])] : GlobalStore) (Ns.family "g" [1]) :=
  c6_clear_frame (fun _ => [([1], [9])]) (Ns.simple "a") (Ns.simple "b") [1]
    "g" [0] [1] (by simp) (by decide)

/-- C7: iterator exhaustion is terminal — if the result of the (n+1)-th
`next()` call on an entries or keys iterator handle is null, every later
call also returns null; the cursor is empty and `nativeEntriesIterNext` /
`nativeKeysIterNext` keep answering null without resetting. -/
theorem c7_exhaustion_terminal (it : List (Bytes × Bytes)) (ks : List Bytes)
    (n m : Nat) (hnm : n ≤ m)
    (he : (iterNextN it n).1 = none) (hk : (iterNextN ks n).1 = none) :
    (iterNextN it m).1 = none ∧ (iterNextN ks m).1 = none ∧
    Java_com_exonum_binding_storage_indices_MapIndexProxy_nativeEntriesIterNext
        (iterNextN it m).2 = (none, []) ∧
    Java_com_exonum_binding_storage_indices_MapIndexProxy_nativeKeysIterNext
        (iterNextN ks m).2 = (none, []) := by
  refine ⟨iterNextN_terminal he hnm, iterNextN_terminal hk hnm, ?_, ?_⟩
  · show iterNext (iterNextN it m).2 = (none, [])
    rw [iterNextN_none_state (iterNextN_terminal he hnm)]
    rfl
  · show iterNext (iterNextN ks m).2 = (none, [])
    rw [iterNextN_none_state (iterNextN_terminal hk hnm)]
    rfl

/-- C7 witness: a one-element entries iterator and keys iterator are
exhausted after their second call and stay exhausted at the fourth. -/
theorem c7_exhaustion_terminal_witness :
    (iterNextN [([1], [2])] 3).1 = none ∧ (iterNextN [[1]] 3).1 = none ∧
    Java_com_exonum_binding_storage_indices_MapIndexProxy_nativeEntriesIterNext
        (iterNextN [([1], [2])] 3).2 = (none, []) ∧
    Java_com_exonum_binding_storage_indices_MapIndexProxy_nativeKeysIterNext
        (iterNextN [[1]] 3).2 = (none, []) :=
  c7_exhaustion_terminal [([1], [2])] [[1]] 1 3 (by decide) rfl rfl

/-- C8: a failing boundary call delivers its error to the host's error
channel and returns the type-appropriate default in place of a result — a
null handle for pointers (also from `nativeCreateMemoryDB` in
`memorydb.rs`), null for byte arrays, `false` for booleans — instead of
crashing. -/
theorem c8_failure_defaults (e : JniError) (m : MapState) :
    unwrap_exc_or_default (Except.error e : Except JniError Handle) =
      (nullHandle, some e) ∧
    unwrap_exc_or_default (Except.error e : Except JniError Bool) =
      (false, some e) ∧
    unwrap_or_exception (Except.error e : Except JniError Handle) =
      (nullHandle, some e) ∧
    Java_com_exonum_storage_DB_MemoryDB_nativeCreateMemoryDB (Except.error e) =
      (nullHandle, some e) ∧
    Java_com_exonum_binding_storage_indices_MapIndexProxy_nativeGet
        (IndexType.snapshotIndex m) none = (none, some JniError.invalidArgument) ∧
    Java_com_exonum_binding_storage_indices_MapIndexProxy_nativeContainsKey
        (IndexType.forkIndex m) none = (false, some JniError.invalidArgument) ∧
    Java_com_exonum_binding_storage_indices_MapIndexProxy_nativeCreateIterFrom
        (IndexType.forkIndex m) none = (none, some JniError.invalidArgument) :=
  ⟨rfl, rfl, rfl, rfl, rfl, rfl, rfl⟩

/-- C9: every read operation computes the same function of the index's
logical contents on the Snapshot path and on the Fork path — the tag
dispatch only selects the backing view. -/
theorem c9_read_paths_agree (m : MapState) (key : Option Bytes) :
    Java_com_exonum_binding_storage_indices_MapIndexProxy_nativeGet
        (IndexType.snapshotIndex m) key =
      Java_com_exonum_binding_storage_indices_MapIndexProxy_nativeGet
        (IndexType.forkIndex m) key ∧
    Java_com_exonum_binding_storage_indices_MapIndexProxy_nativeContainsKey
        (IndexType.snapshotIndex m) key =
      Java_com_exonum_binding_storage_indices_MapIndexProxy_nativeContainsKey
        (IndexType.forkIndex m) key ∧
    Java_com_exonum_binding_storage_indices_MapIndexProxy_nativeCreateEntriesIter
        (IndexType.snapshotIndex m) =
      Java_com_exonum_binding_storage_indices_MapIndexProxy_nativeCreateEntriesIter
        (IndexType.forkIndex m) ∧
    Java_com_exonum_binding_storage_indices_MapIndexProxy_nativeCreateKeysIter
        (IndexType.snapshotIndex m) =
      Java_com_exonum_binding_storage_indices_MapIndexProxy_nativeCreateKeysIter
        (IndexType.forkIndex m) ∧
    Java_com_exonum_binding_storage_indices_MapIndexProxy_nativeCreateValuesIter
        (IndexType.snapshotIndex m) =
      Java_com_exonum_binding_storage_indices_MapIndexProxy_nativeCreateValuesIter
        (IndexType.forkIndex m) ∧
    Java_com_exonum_binding_storage_indices_MapIndexProxy_nativeCreateIterFrom
        (IndexType.snapshotIndex m) key =
      Java_com_exonum_binding_storage_indices_MapIndexProxy_nativeCreateIterFrom
        (IndexType.forkIndex m) key ∧
    Java_com_exonum_binding_storage_indices_MapIndexProxy_nativeKeysFrom
        (IndexType.snapshotIndex m) key =
      Java_com_exonum_binding_storage_indices_MapIndexProxy_nativeKeysFrom
        (IndexType.forkIndex m) key ∧
    Java_com_exonum_binding_storage_indices_MapIndexProxy_nativeValuesFrom
        (IndexType.snapshotIndex m) key =
      Java_com_exonum_binding_storage_indices_MapIndexProxy_nativeValuesFrom
        (IndexType.forkIndex m) key :=
  ⟨rfl, rfl, rfl, rfl, rfl, rfl, rfl, rfl⟩

/-- C10: because the tag is matched before any argument decoding, a put
or remove on a Snapshot-backed index fails with `IllegalMutation` for
every argument — malformed included — never with `InvalidArgument`; on a
Fork-backed index a decode failure of the key or value raises
`InvalidArgument` before any mutation, leaving the contents unchanged. -/
theorem c10_tag_before_decode (ms mf : MapState)
    (keyA valueA key value : Option Bytes) (hbad : key = none ∨ value = none) :
    Java_com_exonum_binding_storage_indices_MapIndexProxy_nativePut
        (IndexType.snapshotIndex ms) keyA valueA =
      (IndexType.snapshotIndex ms, some JniError.illegalMutation) ∧
    Java_com_exonum_binding_storage_indices_MapIndexProxy_nativeRemove
        (IndexType.snapshotIndex ms) keyA =
      (IndexType.snapshotIndex ms, some JniError.illegalMutation) ∧
    Java_com_exonum_binding_storage_indices_MapIndexProxy_nativePut
        (IndexType.forkIndex mf) key value =
      (IndexType.forkIndex mf, some JniError.invalidArgument) ∧
    Java_com_exonum_binding_storage_indices_MapIndexProxy_nativeRemove
        (IndexType.forkIndex mf) none =
      (IndexType.forkIndex mf, some JniError.invalidArgument) := by
  refine ⟨rfl, rfl, ?_, rfl⟩
  rcases hbad with h | h
  · subst h; rfl
  · subst h
    cases key with
    | none => rfl
    | some k => rfl

/-- C10 witness: a Snapshot rejects an undecodable put with
`IllegalMutation`, a Fork rejects it with `InvalidArgument` and keeps its
contents. -/
theorem c10_tag_before_decode_witness :
    Java_com_exonum_binding_storage_indices_MapIndexProxy_nativePut
        (IndexType.snapshotIndex [([1], [2])]) none none =
      (IndexType.snapshotIndex [([1], [2])], some JniError.illegalMutation) ∧
    Java_com_exonum_binding_storage_indices_MapIndexProxy_nativeRemove
        (IndexType.snapshotIndex [([1], [2])]) none =
      (IndexType.snapshotIndex [([1], [2])], some JniError.illegalMutation) ∧
    Java_com_exonum_binding_storage_indices_MapIndexProxy_nativePut
        (IndexType.forkIndex [([1], [2])]) none none =
      (IndexType.forkIndex [([1], [2])], some JniError.invalidArgument) ∧
    Java_com_exonum_binding_storage_indices_MapIndexProxy_nativeRemove
        (IndexType.forkIndex [([1], [2])]) none =
      (IndexType.forkIndex [([1], [2])], some JniError.invalidArgument) :=
  c10_tag_before_decode [([1], [2])] [([1], [2])] none none none none (Or.inl rfl)
